import Mathlib

/-!
Verification of the MAGI decision-pipeline core (Python sources under
`src/agents/`).  The Python code is shallowly embedded: strings become
`List Char`, floats become `Rat` (all constants appearing in the code and in
the checked inputs are exactly representable), `json.loads` becomes an
executable fuel-based parser of the RFC JSON grammar (with Python's
`NaN`/`Infinity` extensions), and the specific `re.search` patterns used by
the code become deterministic scanners with identical semantics (the
patterns involved are backtracking-free).  Async code is modelled by
explicit outcome functions (the value each handler produces) and, for the
stream multiplexer, by a nondeterministic step relation over an explicit
queue state.
-/

namespace MAGI

/-- The opening-brace character, written via its code point. -/
def lbrace : Char := Char.ofNat 123

/-- The closing-brace character, written via its code point. -/
def rbrace : Char := Char.ofNat 125

/-- The double-quote character. -/
def dquote : Char := '"'

/-- Whitespace for Python's `str.strip()` and the `\s` regex class
(ASCII part; the inputs in this development are ASCII/Japanese text
without exotic whitespace). -/
def isPySpace (c : Char) : Bool :=
  c = ' ' || c = '\t' || c = '\n' || c = '\r' || c = '\x0b' || c = '\x0c'

/-- Whitespace accepted between JSON tokens by `json.loads`
(RFC 8259: space, tab, newline, carriage return). -/
def isJsonWs (c : Char) : Bool :=
  c = ' ' || c = '\t' || c = '\n' || c = '\r'

/-- Python `str.strip()`. -/
def pyStrip (l : List Char) : List Char :=
  ((l.dropWhile isPySpace).reverse.dropWhile isPySpace).reverse

/-- Python `str.lower()` (ASCII behaviour; the keyword scans in the code
compare against ASCII and Japanese literals, which `Char.toLower` leaves
untouched). -/
def pyLower (l : List Char) : List Char := l.map Char.toLower

/-- Index of the first occurrence of character `c` (Python `str.find(c)`,
with `none` for `-1`). -/
def charIndex (l : List Char) (c : Char) : Option Nat :=
  match l with
  | [] => none
  | x :: rest => if x = c then some 0 else (charIndex rest c).map (· + 1)

/-- Index of the last occurrence of character `c` (Python `str.rfind(c)`). -/
def lastCharIndex (l : List Char) (c : Char) : Option Nat :=
  match l with
  | [] => none
  | x :: rest =>
    match lastCharIndex rest c with
    | some i => some (i + 1)
    | none => if x = c then some 0 else none

/-- Index of the last occurrence of `c` strictly before position `stop`
(Python `str.rfind(c, 0, stop)`). -/
def lastCharIndexBefore (l : List Char) (c : Char) (stop : Nat) : Option Nat :=
  lastCharIndex (l.take stop) c

/-- Does `pat` occur starting exactly at the head of `l`? -/
def startsWith : List Char → List Char → Bool
  | _, [] => true
  | [], _ :: _ => false
  | x :: xs, p :: ps => x = p && startsWith xs ps

/-- Index of the first occurrence of the substring `pat`
(Python `str.find(pat)`; `none` for `-1`). -/
def findSub (l pat : List Char) : Option Nat :=
  match l with
  | [] => if pat = [] then some 0 else none
  | _ :: rest =>
    if startsWith l pat then some 0 else (findSub rest pat).map (· + 1)

/-- Boolean substring containment (Python `pat in l`). -/
def containsSub (l pat : List Char) : Bool := (findSub l pat).isSome

/-- Python slice `l[a:b]` (for the in-range uses appearing in the code). -/
def pySlice (l : List Char) (a b : Nat) : List Char := (l.take b).drop a

/-- Python slice `l[:b]`. -/
def pyTake (l : List Char) (b : Nat) : List Char := l.take b

/-! ## JSON values and `json.loads`

The code relies on `json.loads` both for validity testing and for field
access.  `Json` is the value model (numbers as exact rationals; Python's
default `allow_nan=True` adds `NaN`/`Infinity` tokens).  The parser is
fuel-indexed; `jsonLoads` supplies `length + 1` fuel, which is sufficient
because every fuel decrement is preceded by consuming at least one
character. -/

inductive Json where
  | null
  | bool (b : Bool)
  | num (q : Rat)
  | nan
  | inf (neg : Bool)
  | str (s : List Char)
  | arr (xs : List Json)
  | obj (kvs : List (List Char × Json))

/-- One escape character after a backslash in a JSON string. -/
def escChar (e : Char) : Option Char :=
  if e = dquote then some dquote
  else if e = '\\' then some '\\'
  else if e = '/' then some '/'
  else if e = 'b' then some (Char.ofNat 8)
  else if e = 'f' then some (Char.ofNat 12)
  else if e = 'n' then some '\n'
  else if e = 'r' then some '\r'
  else if e = 't' then some '\t'
  else none

/-- Value of one hexadecimal digit. -/
def hexVal (c : Char) : Option Nat :=
  if c.isDigit then some (c.toNat - 48)
  else if 'a' ≤ c ∧ c ≤ 'f' then some (c.toNat - 87)
  else if 'A' ≤ c ∧ c ≤ 'F' then some (c.toNat - 55)
  else none

/-- Parse the body of a JSON string after the opening quote; returns the
decoded characters and the remainder after the closing quote.  Unescaped
control characters are rejected (`json.loads` default `strict=True`). -/
def jsonString : List Char → Option (List Char × List Char)
  | [] => none
  | c :: rest =>
    if c = dquote then some ([], rest)
    else if c = '\\' then
      match rest with
      | [] => none
      | e :: rest2 =>
        if e = 'u' then
          match rest2 with
          | h1 :: h2 :: h3 :: h4 :: rest3 =>
            match hexVal h1, hexVal h2, hexVal h3, hexVal h4 with
            | some a, some b, some c1, some d =>
              (jsonString rest3).map
                (fun p => (Char.ofNat (((a * 16 + b) * 16 + c1) * 16 + d) :: p.1, p.2))
            | _, _, _, _ => none
          | _ => none
        else
          match escChar e with
          | some ec => (jsonString rest2).map (fun p => (ec :: p.1, p.2))
          | none => none
    else if c.toNat < 32 then none
    else (jsonString rest).map (fun p => (c :: p.1, p.2))

/-- Decimal value of a digit list. -/
def digitsVal (ds : List Char) : Nat :=
  ds.foldl (fun acc c => acc * 10 + (c.toNat - 48)) 0

/-- Parse a JSON number (RFC 8259 grammar: no leading zeros, fraction and
exponent digits mandatory when the marker is present). -/
def jsonNumber (l : List Char) : Option (Json × List Char) :=
  let p : Bool × List Char :=
    match l with
    | c :: rest => if c = '-' then (true, rest) else (false, l)
    | [] => (false, l)
  let neg := p.1
  let l1 := p.2
  match l1.takeWhile Char.isDigit, l1.dropWhile Char.isDigit with
  | [], _ => none
  | intDigits, rest1 =>
    if 2 ≤ intDigits.length ∧ intDigits.headD 'x' = '0' then none
    else
      let step2 : Option (List Char × List Char) :=
        match rest1 with
        | '.' :: r =>
          match r.takeWhile Char.isDigit with
          | [] => none
          | fd => some (fd, r.dropWhile Char.isDigit)
        | _ => some ([], rest1)
      match step2 with
      | none => none
      | some (fracDigits, rest2) =>
        let step3 : Option (Bool × List Char × List Char) :=
          match rest2 with
          | c :: r =>
            if c = 'e' ∨ c = 'E' then
              let q : Bool × List Char :=
                match r with
                | s :: r2 =>
                  if s = '+' then (false, r2)
                  else if s = '-' then (true, r2) else (false, r)
                | [] => (false, r)
              match q.2.takeWhile Char.isDigit with
              | [] => none
              | ed => some (q.1, ed, q.2.dropWhile Char.isDigit)
            else some (false, [], rest2)
          | [] => some (false, [], rest2)
        match step3 with
        | none => none
        | some (expNeg, expDigits, rest3) =>
          let m : Nat := digitsVal (intDigits ++ fracDigits)
          let e : Nat := digitsVal expDigits
          let numAbs : Nat := m * (if expNeg then 1 else 10 ^ e)
          let den : Nat := 10 ^ fracDigits.length * (if expNeg then 10 ^ e else 1)
          let mag : Rat := mkRat (if neg then -(numAbs : Int) else (numAbs : Int)) den
          some (.num mag, rest3)

mutual

/-- Parse one JSON value from the front of `l` (leading whitespace
allowed), returning the value and the unconsumed remainder. -/
def jsonValue : Nat → List Char → Option (Json × List Char)
  | 0, _ => none
  | fuel + 1, l =>
    match l.dropWhile isJsonWs with
    | [] => none
    | c :: rest =>
      if c = lbrace then
        match rest.dropWhile isJsonWs with
        | [] => none
        | c2 :: rest2 =>
          if c2 = rbrace then some (.obj [], rest2)
          else jsonMembers fuel (c2 :: rest2) []
      else if c = '[' then
        match rest.dropWhile isJsonWs with
        | [] => none
        | c2 :: rest2 =>
          if c2 = ']' then some (.arr [], rest2)
          else jsonItems fuel (c2 :: rest2) []
      else if c = dquote then
        match jsonString rest with
        | some (s, rest1) => some (.str s, rest1)
        | none => none
      else if c = 't' then
        if startsWith rest ("rue").data then some (.bool true, rest.drop 3) else none
      else if c = 'f' then
        if startsWith rest ("alse").data then some (.bool false, rest.drop 4) else none
      else if c = 'n' then
        if startsWith rest ("ull").data then some (.null, rest.drop 3) else none
      else if c = 'N' then
        if startsWith rest ("aN").data then some (.nan, rest.drop 2) else none
      else if c = 'I' then
        if startsWith rest ("nfinity").data then some (.inf false, rest.drop 7) else none
      else if c = '-' ∧ startsWith rest ("Infinity").data then
        some (.inf true, rest.drop 8)
      else jsonNumber (c :: rest)

/-- Parse the members of a JSON object, positioned at the start of a key
(the accumulator holds the members already parsed). -/
def jsonMembers : Nat → List Char → List (List Char × Json) →
    Option (Json × List Char)
  | 0, _, _ => none
  | fuel + 1, l, acc =>
    match l with
    | [] => none
    | c :: rest =>
      if c = dquote then
        match jsonString rest with
        | some (k, rest1) =>
          match rest1.dropWhile isJsonWs with
          | ':' :: rest2 =>
            match jsonValue fuel rest2 with
            | some (v, rest3) =>
              match rest3.dropWhile isJsonWs with
              | ',' :: rest4 =>
                jsonMembers fuel (rest4.dropWhile isJsonWs) (acc ++ [(k, v)])
              | c2 :: rest5 =>
                if c2 = rbrace then some (.obj (acc ++ [(k, v)]), rest5) else none
              | [] => none
            | none => none
          | _ => none
        | none => none
      else none

/-- Parse the items of a JSON array, positioned at the start of an item. -/
def jsonItems : Nat → List Char → List Json → Option (Json × List Char)
  | 0, _, _ => none
  | fuel + 1, l, acc =>
    match jsonValue fuel l with
    | some (v, rest) =>
      match rest.dropWhile isJsonWs with
      | ',' :: rest1 => jsonItems fuel rest1 (acc ++ [v])
      | c :: rest2 => if c = ']' then some (.arr (acc ++ [v]), rest2) else none
      | [] => none
    | none => none

end

/-- Embedding of `json.loads`: parse one value and require only
whitespace to remain. -/
def jsonLoads (l : List Char) : Option Json :=
  match jsonValue (l.length + 1) l with
  | some (v, rest) => if rest.dropWhile isJsonWs = [] then some v else none
  | none => none

/-- Last-wins lookup among object members (Python builds the object with
`dict(pairs)`, so a duplicated key keeps its last value). -/
def objMemberGet (kvs : List (List Char × Json)) (k : List Char) : Option Json :=
  match kvs with
  | [] => none
  | (k1, v) :: rest =>
    match objMemberGet rest k with
    | some v2 => some v2
    | none => if k1 = k then some v else none

/-- `result.get(k)` on a parsed JSON object. -/
def jsonGet (j : Json) (k : List Char) : Option Json :=
  match j with
  | .obj kvs => objMemberGet kvs k
  | _ => none

/-- `k in result` on a parsed JSON object. -/
def jsonHasKey (j : Json) (k : List Char) : Bool := (jsonGet j k).isSome

/-- Project a JSON string value out of an optional JSON value. -/
def jsonStrVal : Option Json → Option (List Char)
  | some (.str s) => some s
  | _ => none

/-- Project a JSON number out of an optional JSON value. -/
def jsonNumVal : Option Json → Option Rat
  | some (.num q) => some q
  | _ => none

/-- String field `k` of a parsed JSON object. -/
def jsonStrField (j : Json) (k : List Char) : Option (List Char) :=
  jsonStrVal (jsonGet j k)

/-- Numeric field `k` of a parsed JSON object. -/
def jsonNumField (j : Json) (k : List Char) : Option Rat :=
  jsonNumVal (jsonGet j k)

/-! ## The `re.search` patterns used by `_parse_sage_decision`

The code uses three patterns of the two shapes `"key"\s*:\s*"([^"]+)"` and
`"key"\s*:\s*([0-9.]+)`.  Both are backtracking-free: `\s*` is followed by a
character `\s` cannot match, and the capture groups are maximal runs
followed by a character the class cannot match (or by nothing).  The
scanners below therefore implement exactly `re.search`'s leftmost-match
semantics. -/

/-- Match a literal at the head of the text, returning the remainder. -/
def matchLit : List Char → List Char → Option (List Char)
  | [], l => some l
  | _ :: _, [] => none
  | p :: ps, x :: xs => if x = p then matchLit ps xs else none

/-- Match `\s*:\s*`, returning the remainder. -/
def matchColon (l : List Char) : Option (List Char) :=
  match l.dropWhile isPySpace with
  | ':' :: r => some (r.dropWhile isPySpace)
  | _ => none

/-- Match `"([^"]+)"` at the head of the text, returning the capture. -/
def captureQuoted (l : List Char) : Option (List Char) :=
  match l with
  | c :: r =>
    if c = dquote then
      let g := r.takeWhile (fun x => !(x = dquote))
      if g = [] then none
      else
        match r.drop g.length with
        | c2 :: _ => if c2 = dquote then some g else none
        | [] => none
    else none
  | [] => none

/-- A character of the class `[0-9.]`. -/
def isNumChar (c : Char) : Bool := c.isDigit || c = '.'

/-- Match the pattern `"key"\s*:\s*"([^"]+)"` at the head of the text. -/
def matchKeyString (key : List Char) (l : List Char) : Option (List Char) :=
  match matchLit (dquote :: key ++ [dquote]) l with
  | some r1 =>
    match matchColon r1 with
    | some r2 => captureQuoted r2
    | none => none
  | none => none

/-- Match the pattern `"key"\s*:\s*([0-9.]+)` at the head of the text. -/
def matchKeyNumber (key : List Char) (l : List Char) : Option (List Char) :=
  match matchLit (dquote :: key ++ [dquote]) l with
  | some r1 =>
    match matchColon r1 with
    | some r2 =>
      match r2.takeWhile isNumChar with
      | [] => none
      | g => some g
    | none => none
  | none => none

/-- `re.search` for the string-valued pattern: try each start position from
the left. -/
def searchKeyString (key : List Char) : List Char → Option (List Char)
  | [] => none
  | c :: rest =>
    match matchKeyString key (c :: rest) with
    | some g => some g
    | none => searchKeyString key rest

/-- `re.search` for the number-valued pattern. -/
def searchKeyNumber (key : List Char) : List Char → Option (List Char)
  | [] => none
  | c :: rest =>
    match matchKeyNumber key (c :: rest) with
    | some g => some g
    | none => searchKeyNumber key rest

/-- Python `float()` applied to a `[0-9.]+` capture: accepted iff the text
has at most one dot and at least one digit (`float("1.2.3")` raises
`ValueError`). -/
def pyFloat (s : List Char) : Option Rat :=
  if s.all isNumChar ∧ s.count '.' ≤ 1 ∧ s.any Char.isDigit then
    let ip := s.takeWhile Char.isDigit
    let rest := s.dropWhile Char.isDigit
    let fd : List Char :=
      match rest with
      | '.' :: r => r
      | _ => []
    some (mkRat (digitsVal (ip ++ fd)) (10 ^ fd.length))
  else none

/-! ## magi_agent.py — keys, `_parse_sage_decision`, `_extract_json_block`

Embedding of the parallel-streaming implementation
(`src/agents/magi_agent.py`).  Parsed sage/judge results are raw Python
dicts there; they are modelled as `Json` objects. -/

/-- The JSON key `"decision"`. -/
def decisionKey : List Char := ("decision").data

/-- The JSON key `"confidence"`. -/
def confidenceKey : List Char := ("confidence").data

/-- The JSON key `"reasoning"`. -/
def reasoningKey : List Char := ("reasoning").data

/-- The JSON key `"final_decision"`. -/
def finalDecisionKey : List Char := ("final_decision").data

/-- The JSON key `"sage_scores"`. -/
def sageScoresKey : List Char := ("sage_scores").data

/-- Candidate text for method 1 of `_parse_sage_decision`
(magi_agent.py lines 515-527): from the first `{` to one past the last
`}`; `none` when the code takes an early `return None`. -/
def sageJsonCandidate (buffer : List Char) : Option (List Char) :=
  match charIndex buffer lbrace with
  | none => none
  | some jsonStart =>
    let jsonEnd : Nat :=
      match lastCharIndex buffer rbrace with
      | some i => i + 1
      | none => 0
    if jsonEnd ≤ jsonStart then none else some (pySlice buffer jsonStart jsonEnd)

/-- Method 1 of `_parse_sage_decision`: `json.loads` on the candidate,
accepted when the parsed dict has the key `"decision"`
(magi_agent.py lines 528-534). -/
def sageMethod1 (buffer : List Char) : Option Json :=
  match sageJsonCandidate buffer with
  | none => none
  | some t =>
    match jsonLoads t with
    | some result => if jsonHasKey result decisionKey then some result else none
    | none => none

/-- The dict built by method 2 of `_parse_sage_decision`
(magi_agent.py lines 547-552): regex-extracted decision, confidence
defaulting to `0.5`, reasoning defaulting to `"Extracted via regex"`. -/
def regexResult (d : List Char) (c : Option Rat) (rs : Option (List Char)) : Json :=
  .obj [ (decisionKey, .str d),
         (confidenceKey, .num (c.getD (mkRat 1 2))),
         (reasoningKey, .str (rs.getD (("Extracted via regex").data))) ]

/-- The method-3 default of `_parse_sage_decision`
(magi_agent.py lines 566-570). -/
def defaultAbstained (agentId : List Char) : Json :=
  .obj [ (decisionKey, .str (("ABSTAINED").data)),
         (confidenceKey, .num 0),
         (reasoningKey, .str ((("Failed to parse response from ").data) ++ agentId)) ]

/-- Embedding of `MAGIStrandsAgent._parse_sage_decision`
(magi_agent.py lines 498-570) as a function of the sage's buffer.
Method 1 (`json.loads` of the brace-to-brace slice, requiring the
`"decision"` key), then method 2 (the three `re.search` patterns; a
`ValueError` from `float()` falls through to method 3 via the
`except Exception`), then the method-3 default.  `none` models the
early `return None` paths (empty buffer, no brace, bad brace order). -/
def parseSageDecisionCore (agentId buffer : List Char) : Option Json :=
  if buffer = [] then none
  else
    match sageJsonCandidate buffer with
    | none => none
    | some _ =>
      match sageMethod1 buffer with
      | some r => some r
      | none =>
        match searchKeyString decisionKey buffer with
        | some d =>
          match searchKeyNumber confidenceKey buffer with
          | some cg =>
            match pyFloat cg with
            | some c => some (regexResult d (some c) (searchKeyString reasoningKey buffer))
            | none => some (defaultAbstained agentId)
          | none => some (regexResult d none (searchKeyString reasoningKey buffer))
        | none => some (defaultAbstained agentId)

/-- The payload of the `agent_complete` event after a sage's stream ends
normally (magi_agent.py lines 813-844): the parsed decision when
`_parse_sage_decision` produced one, else the caller-side fallback dict
`{"decision": "ABSTAINED", "reasoning": full_response[:200],
"confidence": 0.5}`. -/
def sageCompleteResult (agentId buffer fullResponse : List Char) : Json :=
  match parseSageDecisionCore agentId buffer with
  | some d => d
  | none =>
    .obj [ (decisionKey, .str (("ABSTAINED").data)),
           (reasoningKey, .str (pyTake fullResponse 200)),
           (confidenceKey, .num (mkRat 1 2)) ]

/-- The depth update of `_extract_json_block`'s balanced-brace scan
(magi_agent.py lines 595-613): track depth from the opening brace; at
every position where the depth returns to zero on a `}`, strip the slice
and test it with `json.loads`, continuing on failure. -/
def braceDepthStep (c : Char) (depth : Int) : Int :=
  if c = lbrace then depth + 1 else if c = rbrace then depth - 1 else depth

/-- The scan loop itself, with the depth update factored into
`braceDepthStep`; `pre` is the text already consumed since the start
index. -/
def braceScanGo (pre rem : List Char) (depth : Int) : Option (List Char) :=
  match rem with
  | [] => none
  | c :: rest =>
    if c = rbrace ∧ braceDepthStep c depth = 0 then
      match jsonLoads (pyStrip (pre ++ [c])) with
      | some _ => some (pyStrip (pre ++ [c]))
      | none => braceScanGo (pre ++ [c]) rest (braceDepthStep c depth)
    else braceScanGo (pre ++ [c]) rest (braceDepthStep c depth)

/-- Embedding of `MAGIStrandsAgent._extract_json_block`
(magi_agent.py lines 572-614): locate the key hint, scan back to the
nearest `{`, then scan forward for a balanced, `json.loads`-valid
candidate. -/
def extractJsonBlock (fullText keyHint : List Char) : Option (List Char) :=
  if fullText = [] then none
  else
    match findSub fullText keyHint with
    | none => none
    | some keyPos =>
      match lastCharIndexBefore fullText lbrace keyPos with
      | none => none
      | some startIndex => braceScanGo [] (fullText.drop startIndex) 0

/-! ## magi_agent.py — timeout and error handlers

The streaming workers are async generators; wall-clock time is outside the
embedding, so each `except` branch is modelled as the function from the
data it closes over (the timeout setting and the accumulated partial text,
or the exception message) to the events it emits.  Totality of these
functions is the embedded form of "the worker absorbs the exception". -/

/-- The apostrophe character. -/
def apostrophe : Char := Char.ofNat 39

/-- Payload of an `agent_timeout` / `judge_timeout` event
(the wall-clock `elapsed` field is omitted from the model). -/
structure TimeoutEventRec where
  timeoutSeconds : Nat
  partialResponse : Option (List Char)
deriving DecidableEq

/-- Events a sage worker can emit (magi_agent.py `_consult_sage_stream`). -/
inductive SageEvent where
  | agentStart
  | agentThinking (text : List Char)
  | agentChunk (text : List Char)
  | agentTimeout (ev : TimeoutEventRec)
  | errorEvent (msg : List Char)
  | agentComplete (result : Json)

/-- Events the judge worker can emit (magi_agent.py `_solomon_judgment_stream`). -/
inductive JudgeEvent where
  | judgeThinking (text : List Char)
  | judgeChunk (text : List Char)
  | judgeTimeout (ev : TimeoutEventRec)
  | judgeError (msg : List Char)
  | judgeComplete (result : Json)

/-- The partial-text part of a timeout reasoning string
(magi_agent.py lines 859-862 and 1111-1114 share this shape). -/
def timeoutPartialText (part : List Char) : List Char :=
  if part = [] then ("No response received.").data
  else
    (("Partial response (").data) ++ (toString part.length).data ++
      ((" chars): ").data) ++ pyTake part 100 ++ (("...").data)

/-- The sage timeout record (magi_agent.py lines 857-864): ABSTAINED with
confidence 0.0, reasoning carrying the first 100 characters of the
partial text. -/
def sageTimeoutRecord (t : Nat) (part : List Char) : Json :=
  .obj [ (decisionKey, .str (("ABSTAINED").data)),
         (reasoningKey, .str ((("Timeout after ").data) ++ (toString t).data ++
            (("s. ").data) ++ timeoutPartialText part)),
         (confidenceKey, .num 0) ]

/-- The `agent_timeout` event payload (magi_agent.py lines 867-872):
the first 200 characters of the partial text, or `None`. -/
def sageTimeoutEvent (t : Nat) (part : List Char) : TimeoutEventRec :=
  ⟨t, if part = [] then none else some (pyTake part 200)⟩

/-- Events emitted by the sage `asyncio.TimeoutError` handler
(magi_agent.py lines 847-875): the timeout event, then the terminal
`agent_complete` with the ABSTAINED record. -/
def sageTimeoutOutcome (t : Nat) (part : List Char) : List SageEvent :=
  [ .agentTimeout (sageTimeoutEvent t part),
    .agentComplete (sageTimeoutRecord t part) ]

/-- The judge timeout record (magi_agent.py lines 1109-1121): REJECTED
with confidence 0.5 and synthesized per-sage scores of 50. -/
def solomonTimeoutRecord (t : Nat) (part : List Char) : Json :=
  .obj [ (finalDecisionKey, .str (("REJECTED").data)),
         (reasoningKey, .str ((("SOLOMON evaluation timed out after ").data) ++
            (toString t).data ++ (("s. ").data) ++ timeoutPartialText part)),
         (confidenceKey, .num (mkRat 1 2)),
         (sageScoresKey, .obj [ ((("caspar").data), .num 50),
                                ((("balthasar").data), .num 50),
                                ((("melchior").data), .num 50) ]) ]

/-- Events emitted by the judge `asyncio.TimeoutError` handler
(magi_agent.py lines 1099-1132). -/
def solomonTimeoutOutcome (t : Nat) (part : List Char) : List JudgeEvent :=
  [ .judgeTimeout ⟨t, if part = [] then none else some (pyTake part 200)⟩,
    .judgeComplete (solomonTimeoutRecord t part) ]

/-- The sage error record (magi_agent.py lines 881-885): ABSTAINED with
confidence 0.0. -/
def sageErrorRecord (msg : List Char) : Json :=
  .obj [ (decisionKey, .str (("ABSTAINED").data)),
         (reasoningKey, .str ((("エラーが発生しました: ").data) ++ msg)),
         (confidenceKey, .num 0) ]

/-- Events emitted by the sage `except Exception` handler
(magi_agent.py lines 877-894): an error event, then the terminal
`agent_complete`; the exception itself is not re-raised. -/
def sageErrorOutcome (msg : List Char) : List SageEvent :=
  [ .errorEvent msg, .agentComplete (sageErrorRecord msg) ]

/-- The judge error record (magi_agent.py lines 1141-1150): REJECTED with
confidence 0.5 and per-sage scores of 50. -/
def solomonErrorRecord (msg : List Char) : Json :=
  .obj [ (finalDecisionKey, .str (("REJECTED").data)),
         (reasoningKey, .str ((("SOLOMON評価中にエラーが発生しました: ").data) ++ msg)),
         (confidenceKey, .num (mkRat 1 2)),
         (sageScoresKey, .obj [ ((("caspar").data), .num 50),
                                ((("balthasar").data), .num 50),
                                ((("melchior").data), .num 50) ]) ]

/-- Events emitted by the judge `except Exception` handler
(magi_agent.py lines 1134-1165). -/
def solomonErrorOutcome (msg : List Char) : List JudgeEvent :=
  [ .judgeError msg, .judgeComplete (solomonErrorRecord msg) ]

/-- The key hint `'"final_decision"'` passed to `_extract_json_block`
by the judge stream (magi_agent.py line 1068) — note it includes the
double quotes. -/
def finalDecisionHint : List Char := dquote :: finalDecisionKey ++ [dquote]

/-- The fixed dict substituted on a `json.JSONDecodeError` in the judge
stream (magi_agent.py lines 1088-1095): REJECTED with confidence 0.5 and
an empty score map, independent of the sage batch. -/
def solomonParseFailureResult (fullResponse : List Char) : Json :=
  .obj [ (finalDecisionKey, .str (("REJECTED").data)),
         (reasoningKey, .str (pyTake fullResponse 300)),
         (confidenceKey, .num (mkRat 1 2)),
         (sageScoresKey, .obj []) ]

/-- The payload of the judge's terminal `judge_complete` event when its
stream finishes (magi_agent.py lines 1060-1096 plus the outer handler at
1134-1165): responses shorter than 10 characters raise a `ValueError`
that only the outer `except Exception` catches; otherwise the JSON text
is chosen by the three-stage selection and `json.loads` failure yields
the fixed REJECTED dict. -/
def solomonCompleteResult (fullResponse : List Char) : Json :=
  if fullResponse.length < 10 then
    solomonErrorRecord ((("Solomon response too short or empty: ").data) ++
      [apostrophe] ++ fullResponse ++ [apostrophe])
  else
    let t1 : List Char := (extractJsonBlock fullResponse finalDecisionHint).getD []
    let t2 : List Char :=
      if t1 = [] ∧ (charIndex fullResponse lbrace).isSome then
        pySlice fullResponse ((charIndex fullResponse lbrace).getD 0)
          (match lastCharIndex fullResponse rbrace with
           | some i => i + 1
           | none => 0)
      else t1
    let t3 : List Char := if t2 = [] then pyStrip fullResponse else t2
    match jsonLoads t3 with
    | some result => result
    | none => solomonParseFailureResult fullResponse

/-! ## shared/types.py and magi_strands_agents.py

The pydantic data model (`src/agents/shared/types.py`) and the
non-streaming strands implementation (`src/agents/magi_strands_agents.py`).
`datetime` fields are omitted (wall clock). -/

/-- `AgentType` (types.py lines 19-32). -/
inductive AgentType where
  | solomon
  | caspar
  | balthasar
  | melchior
deriving DecidableEq

/-- `DecisionType` (types.py lines 35-44) — note the enum has only the
two members APPROVED and REJECTED; ABSTAINED exists only as a counter in
`VotingResult` and as a string in magi_agent.py. -/
inductive DecisionType where
  | APPROVED
  | REJECTED
deriving DecidableEq

/-- `AgentResponse` (types.py lines 47-67). -/
structure AgentResponse where
  agentId : AgentType
  decision : DecisionType
  content : List Char
  reasoning : List Char
  confidence : Rat
  executionTime : Nat
deriving DecidableEq

/-- `AgentResponse.validate_confidence` (types.py lines 62-67) together
with the field bounds `ge=0.0, le=1.0`: out-of-range values raise a
`ValueError`, modelled as `none`. -/
def validateConfidence (v : Rat) : Option Rat :=
  if 0 ≤ v ∧ v ≤ 1 then some v else none

/-- `VotingResult` (types.py lines 79-98); the `ge=0` field bounds make
the counters naturals. -/
structure VotingResult where
  approved : Nat
  rejected : Nat
  abstained : Nat
deriving DecidableEq

/-- `VotingResult.approval_rate` (types.py lines 92-98). -/
def approvalRate (v : VotingResult) : Rat :=
  if v.approved + v.rejected = 0 then 0
  else mkRat (v.approved : Int) (v.approved + v.rejected)

/-- `AgentScore` (types.py lines 70-76). -/
structure AgentScore where
  agentId : AgentType
  score : Int
  reasoning : List Char
deriving DecidableEq

/-- `JudgeResponse` (types.py lines 101-120). -/
structure JudgeResponse where
  finalDecision : DecisionType
  votingResult : VotingResult
  scores : List AgentScore
  summary : List Char
  finalRecommendation : List Char
  reasoning : List Char
  confidence : Rat
  executionTime : Nat
deriving DecidableEq

/-- Python `int(confidence * 100)` (truncation toward zero, exact on the
rational model). -/
def intOfTimes100 (q : Rat) : Int := Int.tdiv (q.num * 100) (q.den : Int)

/-- The clamp `max(0.0, min(1.0, confidence))` used by
`_parse_sage_response` (magi_strands_agents.py line 398). -/
def clampConfidence (c : Rat) : Rat := max 0 (min 1 c)

/-- `MAGIStrandsSystem._fallback_parse_response`
(magi_strands_agents.py lines 409-426): case-insensitive keyword scan,
APPROVED only when an approval keyword occurs, confidence 0.6. -/
def fallbackParseResponse (responseText : List Char) (agentId : AgentType)
    (executionTime : Nat) : AgentResponse :=
  let textLower := pyLower responseText
  let decision : DecisionType :=
    if containsSub textLower (("approved").data) ||
       containsSub textLower (("可決").data) ||
       containsSub textLower (("承認").data) then .APPROVED else .REJECTED
  { agentId := agentId
    decision := decision
    content := responseText
    reasoning := ("テキスト解析による判断").data
    confidence := mkRat 3 5
    executionTime := executionTime }

/-- The error response built by `_consult_single_sage`'s
`except Exception` handler (magi_strands_agents.py lines 363-375):
REJECTED with confidence 0.0; the exception is not re-raised. -/
def consultSingleSageErrorResponse (sageType : AgentType) (msg : List Char)
    (executionTime : Nat) : AgentResponse :=
  { agentId := sageType
    decision := .REJECTED
    content := ("エラー: ").data ++ msg
    reasoning := ("実行エラーによる自動否決").data
    confidence := 0
    executionTime := executionTime }

/-- `MAGIStrandsSystem._create_fallback_judgment`
(magi_strands_agents.py lines 533-563): count APPROVED/REJECTED over the
input batch; `final = APPROVED if approved > rejected else REJECTED`. -/
def createFallbackJudgment (sageResponses : List AgentResponse) : JudgeResponse :=
  let approved := sageResponses.countP (fun r => decide (r.decision = DecisionType.APPROVED))
  let rejected := sageResponses.countP (fun r => decide (r.decision = DecisionType.REJECTED))
  { finalDecision := if approved > rejected then .APPROVED else .REJECTED
    votingResult := ⟨approved, rejected, 0⟩
    scores := sageResponses.map
      (fun r => ⟨r.agentId, intOfTimes100 r.confidence, ("自動評価").data⟩)
    summary := ("3賢者の判断を集計しました").data
    finalRecommendation := ("慎重な検討を推奨します").data
    reasoning := ("投票結果: 可決").data ++ (toString approved).data ++
      ("票、否決").data ++ (toString rejected).data ++ ("票による判断").data
    confidence := mkRat 7 10
    executionTime := 0 }

/-- `DecisionType(s)` — raises `ValueError` (`none`) off the enum. -/
def decisionTypeOfStr (s : List Char) : Option DecisionType :=
  if s = ("APPROVED").data then some .APPROVED
  else if s = ("REJECTED").data then some .REJECTED
  else none

/-- `AgentType(s)`. -/
def agentTypeOfStr (s : List Char) : Option AgentType :=
  if s = ("solomon").data then some .solomon
  else if s = ("caspar").data then some .caspar
  else if s = ("balthasar").data then some .balthasar
  else if s = ("melchior").data then some .melchior
  else none

/-- Python `float(x)` on a parsed JSON scalar (`none` models a raise). -/
def jsonFloatVal : Json → Option Rat
  | .num q => some q
  | .bool b => some (if b then 1 else 0)
  | .str s => pyFloat s
  | _ => none

/-- Python `int(x)` on a parsed JSON scalar. -/
def jsonIntVal : Json → Option Int
  | .num q => some (Int.tdiv q.num (q.den : Int))
  | .bool b => some (if b then 1 else 0)
  | .str s => if s ≠ [] ∧ s.all Char.isDigit then some (digitsVal s) else none
  | _ => none

/-- A string field with a default; a non-string value would be
str-coerced by pydantic in Python — that rendering is irrelevant to every
checked property, and the model substitutes the default text there. -/
def strOrDefault (v : Option Json) (d : List Char) : List Char :=
  match v with
  | some (.str s) => s
  | _ => d

/-- Combine elementwise conversions. -/
def optionAll {α : Type} : List (Option α) → Option (List α)
  | [] => some []
  | none :: _ => none
  | some a :: rest => (optionAll rest).map (a :: ·)

/-- Conversion of one `scores` entry by `_parse_solomon_response`
(magi_strands_agents.py lines 508-514), including the `AgentScore`
pydantic bounds `0 ≤ score ≤ 100`. -/
def convSolomonScore (x : Json) : Option AgentScore :=
  match x with
  | .obj _ =>
    let aid : Option AgentType :=
      match jsonGet x (("agent_id").data) with
      | none => some .caspar
      | some (.str s) => agentTypeOfStr s
      | some _ => none
    let sc : Option Int :=
      match jsonGet x (("score").data) with
      | none => some 75
      | some v => jsonIntVal v
    match aid, sc with
    | some a, some n =>
      if 0 ≤ n ∧ n ≤ 100 then
        some ⟨a, n, strOrDefault (jsonGet x reasoningKey) (("評価理由なし").data)⟩
      else none
    | _, _ => none
  | _ => none

/-- The `try` body of `MAGIStrandsSystem._parse_solomon_response`
(magi_strands_agents.py lines 484-526).  `none` covers every failure the
code recovers from: the missing-brace guard, a `json.JSONDecodeError`,
and the `ValueError`/`KeyError` raises of the field conversions
(including pydantic's bound checks); raises outside the local `except`
tuple land in `_solomon_judgment`'s `except Exception`, which falls back
identically. -/
def trySolomonParsed (responseText : List Char) (sageResponses : List AgentResponse)
    (executionTime : Nat) : Option JudgeResponse :=
  if (charIndex responseText lbrace).isSome ∧ (charIndex responseText rbrace).isSome then
    let jsonText := pySlice responseText ((charIndex responseText lbrace).getD 0)
      (match lastCharIndex responseText rbrace with
       | some i => i + 1
       | none => 0)
    match jsonLoads jsonText with
    | none => none
    | some parsed =>
      let approved := sageResponses.countP (fun r => decide (r.decision = DecisionType.APPROVED))
      let rejected := sageResponses.countP (fun r => decide (r.decision = DecisionType.REJECTED))
      let scoresRaw : Option (List Json) :=
        match jsonGet parsed (("scores").data) with
        | none => some []
        | some (.arr xs) => some xs
        | some _ => none
      match scoresRaw with
      | none => none
      | some xs =>
        match optionAll (xs.map convSolomonScore) with
        | none => none
        | some scores =>
          let fdv : Option DecisionType :=
            match jsonGet parsed finalDecisionKey with
            | none => some .REJECTED
            | some (.str s) => decisionTypeOfStr s
            | some _ => none
          let conf : Option Rat :=
            match jsonGet parsed confidenceKey with
            | none => some (mkRat 4 5)
            | some v => jsonFloatVal v
          match fdv, conf with
          | some fd, some c =>
            if 0 ≤ c ∧ c ≤ 1 then
              some { finalDecision := fd
                     votingResult := ⟨approved, rejected, 0⟩
                     scores := scores
                     summary := strOrDefault (jsonGet parsed (("summary").data))
                       (("統合評価完了").data)
                     finalRecommendation :=
                       strOrDefault (jsonGet parsed (("final_recommendation").data))
                         (("詳細検討を推奨").data)
                     reasoning := strOrDefault (jsonGet parsed reasoningKey)
                       (("多数決による判断").data)
                     confidence := c
                     executionTime := executionTime }
            else none
          | _, _ => none
  else none

/-- `MAGIStrandsSystem._parse_solomon_response`
(magi_strands_agents.py lines 484-531): the parsed judgement when the
`try` body succeeds, else `_create_fallback_judgment` over the input
batch. -/
def parseSolomonResponse (responseText : List Char) (sageResponses : List AgentResponse)
    (executionTime : Nat) : JudgeResponse :=
  match trySolomonParsed responseText sageResponses executionTime with
  | some jr => jr
  | none => createFallbackJudgment sageResponses

/-! ## solomon/agent.py — vote calculation and final decision -/

/-- `SolomonJudgeAgent._calculate_voting_result`
(solomon/agent.py lines 310-320). -/
def calcVotingResult (responses : List AgentResponse) : VotingResult :=
  let approved := responses.countP (fun r => decide (r.decision = DecisionType.APPROVED))
  let rejected := responses.countP (fun r => decide (r.decision = DecisionType.REJECTED))
  ⟨approved, rejected, responses.length - approved - rejected⟩

/-- `SolomonJudgeAgent._determine_final_decision`
(solomon/agent.py lines 344-367).  Majority first; on a tie the source
compares average scores where each comprehension filters with
`any(... for r in [])` — the literal empty list in the source — so both
averages are `0 / max(1, count)` and the `>=` comparison yields
APPROVED. -/
def determineFinalDecision (votingResult : VotingResult) (scores : List AgentScore) :
    DecisionType :=
  if votingResult.approved > votingResult.rejected then .APPROVED
  else if votingResult.rejected > votingResult.approved then .REJECTED
  else
    let avgApprovedScore : Rat :=
      mkRat ((scores.filter (fun s => ([] : List AgentResponse).any
        (fun r => decide (r.agentId = s.agentId) && decide (r.decision = DecisionType.APPROVED)))).foldl
        (fun acc s => acc + s.score) 0) (max 1 votingResult.approved)
    let avgRejectedScore : Rat :=
      mkRat ((scores.filter (fun s => ([] : List AgentResponse).any
        (fun r => decide (r.agentId = s.agentId) && decide (r.decision = DecisionType.REJECTED)))).foldl
        (fun acc s => acc + s.score) 0) (max 1 votingResult.rejected)
    if avgApprovedScore ≥ avgRejectedScore then .APPROVED else .REJECTED

/-- The spec's Vote Aggregator rule stated from the spec's words
(section 4.4): `final = APPROVED if approved_count > rejected_count else
REJECTED`, ties to REJECTED.  Used only to compare the source functions
against the specified rule. -/
def specVoteRule (approved rejected : Nat) : DecisionType :=
  if approved > rejected then .APPROVED else .REJECTED

/-- The per-sage tally of `process_decision_stream`
(magi_agent.py lines 379-388), counting the decision strings. -/
def countVotes (finalDecisions : List (List Char)) : VotingResult :=
  ⟨ finalDecisions.countP (fun d => decide (d = ("APPROVED").data)),
    finalDecisions.countP (fun d => decide (d = ("REJECTED").data)),
    finalDecisions.countP (fun d => decide (d = ("ABSTAINED").data)) ⟩

/-! ## Entry-point validation (lambda_handler.py, types.py, magi_agent.py) -/

/-- `MAGIDecisionRequest.validate_question` (types.py lines 153-158):
reject empty or whitespace-only questions, store the stripped text. -/
def validateQuestion (q : List Char) : Option (List Char) :=
  if q = [] ∨ pyStrip q = [] then none else some (pyStrip q)

/-- Constructing `MAGIDecisionRequest(question=q)`: the field bound
`min_length=1` and then the validator. -/
def magiRequestQuestion (q : List Char) : Option (List Char) :=
  if q.length < 1 then none else validateQuestion q

/-- The request body seen by the Lambda handler (fields it reads). -/
structure LambdaBody where
  question : Option (List Char)
  message : Option (List Char)

/-- What the handler does after parsing the body: either the 500 error
response (validation failed before `magi.decide` ran) or proceeding to
the decision with the accepted question. -/
inductive LambdaOutcome where
  | errorResponse (statusCode : Nat)
  | proceeds (question : List Char)
deriving DecidableEq

/-- `body.get('question', body.get('message', 'テスト質問'))`
(lambda_handler.py line 42). -/
def handlerQuestion (b : LambdaBody) : List Char :=
  b.question.getD (b.message.getD (("テスト質問").data))

/-- The control flow of `handler` (lambda_handler.py lines 36-115):
`MAGIDecisionRequest` is constructed before `magi.decide`; a pydantic
`ValidationError` is caught by the blanket `except` and returns the
500 response. -/
def lambdaHandlerOutcome (b : LambdaBody) : LambdaOutcome :=
  match magiRequestQuestion (handlerQuestion b) with
  | some q => .proceeds q
  | none => .errorResponse 500

/-- Framing events of the streaming driver. -/
inductive PipeEvent where
  | start (question : List Char)
  | sagesStart (sageCount : Nat)
deriving DecidableEq

/-- The prefix of `process_decision_stream` before any sage output
(magi_agent.py lines 325-365): read the question with a default, emit
`start` and `sages_start`, then create the three sage tasks — with no
validation of the question. -/
def processDecisionStreamPrefix (question : Option (List Char)) : List PipeEvent :=
  [ .start (question.getD (("デフォルト質問").data)), .sagesStart 3 ]

/-! ## The stream multiplexer (magi_agent.py `_merge_streams`)

`_merge_streams` wraps each worker generator so that its events are put,
in the worker's own emission order, onto one shared FIFO
`asyncio.Queue`, and the consumer loop pops the queue front and yields.
This is modelled as a state machine: `push i` moves worker `i`'s next
event to the queue tail (one `await event_queue.put` step), `pop` moves
the queue front to the output (one `await event_queue.get()` + `yield`
step).  A schedule (any list of choices) covers every interleaving the
event loop can produce; stopping early covers the guard-timeout exit. -/

structure MergeState (E : Type) where
  pending : List (List E)
  queue : List (Nat × E)
  output : List (Nat × E)

inductive MergeChoice where
  | push (i : Nat)
  | pop

/-- One scheduler step. -/
def mergeStep {E : Type} (s : MergeState E) : MergeChoice → MergeState E
  | .push i =>
    match s.pending.get? i with
    | some (e :: rest) =>
      { s with pending := s.pending.set i rest, queue := s.queue ++ [(i, e)] }
    | _ => s
  | .pop =>
    match s.queue with
    | (i, e) :: q => { s with queue := q, output := s.output ++ [(i, e)] }
    | [] => s

/-- Run a schedule from the initial state (all worker event lists
pending, queue and output empty). -/
def mergeRun {E : Type} (ws : List (List E)) (cs : List MergeChoice) : MergeState E :=
  cs.foldl mergeStep ⟨ws, [], []⟩

/-- The subsequence of a tagged event list that belongs to worker `i`. -/
def workerEvents {E : Type} (i : Nat) (l : List (Nat × E)) : List E :=
  l.filterMap (fun p => if p.1 = i then some p.2 else none)

/-! ## Inputs for the adversarial-extraction property

The claim quantifies over texts of the form: Python-repr log noise
followed by a valid decision object.  `c3Valid D` is the valid block
`\x7b"decision": "D", "confidence": 0.9\x7d` with the decision value `D`
abstract. -/

/-- The concrete suffix of the valid block after the decision value. -/
def c3S : List Char := ("\", \"confidence\": 0.9\x7d").data

/-- The valid decision block with decision value `D`. -/
def c3Valid (D : List Char) : List Char :=
  ("\x7b\"decision\": \"").data ++ D ++ c3S

/-! ## Helper lemmas -/

/-- A hit of `lastCharIndex` means the character occurs. -/
lemma lastCharIndex_mem {l : List Char} {c : Char} {i : Nat}
    (h : lastCharIndex l c = some i) : c ∈ l := by
  induction l generalizing i with
  | nil => simp [lastCharIndex] at h
  | cons x rest ih =>
    simp only [lastCharIndex] at h
    cases hr : lastCharIndex rest c with
    | some j => exact List.mem_cons_of_mem x (ih hr)
    | none =>
      rw [hr] at h
      by_cases hx : x = c
      · subst hx
        exact List.mem_cons_self x rest
      · rw [if_neg hx] at h
        cases h

/-- A miss of `charIndex` means the character does not occur. -/
lemma charIndex_none_not_mem {l : List Char} {c : Char}
    (h : charIndex l c = none) : c ∉ l := by
  induction l with
  | nil => simp
  | cons x rest ih =>
    simp only [charIndex] at h
    split at h
    · cases h
    · rename_i hx
      intro hmem
      rcases List.mem_cons.mp hmem with rfl | hmem
      · exact hx rfl
      · exact ih (by
          cases hr : charIndex rest c with
          | none => rfl
          | some j => rw [hr] at h; cases h) hmem

/-- A hit of `lastCharIndexBefore` contradicts a global `charIndex`
miss. -/
lemma lastCharIndexBefore_subset_charIndex {l : List Char} {c : Char}
    {stop i : Nat} (h : lastCharIndexBefore l c stop = some i)
    (hnone : charIndex l c = none) : False :=
  charIndex_none_not_mem hnone
    (List.mem_of_mem_take (lastCharIndex_mem h))

/-- `_create_fallback_judgment` computes exactly the spec's Vote
Aggregator rule on its APPROVED/REJECTED counts. -/
lemma fallbackJudgment_follows_rule (rs : List AgentResponse) :
    (createFallbackJudgment rs).finalDecision =
      specVoteRule (rs.countP (fun r => decide (r.decision = DecisionType.APPROVED)))
        (rs.countP (fun r => decide (r.decision = DecisionType.REJECTED))) := rfl

/-- The spec's rule sends every tie to REJECTED. -/
lemma specVoteRule_tie (n : Nat) : specVoteRule n n = DecisionType.REJECTED := by
  simp [specVoteRule]

/-! ## C1 -/

/-- C1, counterexample: on the batch [APPROVED, REJECTED, ABSTAINED]
(the claim's own example of a tie), `_determine_final_decision` of
solomon/agent.py returns APPROVED, not the claimed REJECTED: its
tie branch compares two averages that are both `0 / max(1, 1)` because
the comprehensions iterate over the literal empty list, and `0 >= 0`
selects APPROVED. -/
theorem c1_tie_to_approved_counterexample :
    determineFinalDecision
        (countVotes [("APPROVED").data, ("REJECTED").data, ("ABSTAINED").data])
        [⟨AgentType.caspar, 80, ("a").data⟩, ⟨AgentType.balthasar, 60, ("b").data⟩,
         ⟨AgentType.melchior, 40, ("c").data⟩] = DecisionType.APPROVED ∧
    DecisionType.APPROVED ≠ DecisionType.REJECTED := by
  constructor
  · decide
  · decide

/-- C1, amended: `_create_fallback_judgment` is a pure function of the
batch following `final = APPROVED if approved > rejected else REJECTED`
(so its ties go to REJECTED), but `_determine_final_decision` resolves
every tie (approved == rejected) to APPROVED because its score
comparison iterates over an empty list. -/
theorem c1_vote_rule_amended :
    (∀ rs : List AgentResponse,
      (createFallbackJudgment rs).finalDecision =
        specVoteRule (rs.countP (fun r => decide (r.decision = DecisionType.APPROVED)))
          (rs.countP (fun r => decide (r.decision = DecisionType.REJECTED)))) ∧
    (∀ n : Nat, specVoteRule n n = DecisionType.REJECTED) ∧
    (∀ (v : VotingResult) (sc : List AgentScore),
      v.approved = v.rejected → determineFinalDecision v sc = DecisionType.APPROVED) := by
  refine ⟨fallbackJudgment_follows_rule, specVoteRule_tie, ?_⟩
  intro v sc h
  simp only [determineFinalDecision, h, lt_irrefl, if_false, List.any_nil,
    List.filter_false, List.foldl_nil, le_refl, ge_iff_le, if_true]

/-- C1 witness: the amended statement at the tie batch (1, 1, 1). -/
theorem c1_vote_rule_amended_witness :
    (createFallbackJudgment []).finalDecision = specVoteRule 0 0 ∧
    determineFinalDecision ⟨1, 1, 1⟩ [] = DecisionType.APPROVED :=
  ⟨c1_vote_rule_amended.1 [], c1_vote_rule_amended.2.2 ⟨1, 1, 1⟩ [] rfl⟩

/-! ## C2 -/

/-- C2, counterexample: for the raw model text
`{"decision": "APPROVED", "confidence": 2.5}`, `_parse_sage_decision`
returns the parsed dict unclamped, so the `agent_complete` payload
carries confidence 2.5 > 1. -/
theorem c2_unclamped_confidence_counterexample :
    jsonNumField
      (sageCompleteResult (("caspar").data)
        (("\x7b\"decision\": \"APPROVED\", \"confidence\": 2.5\x7d").data)
        (("\x7b\"decision\": \"APPROVED\", \"confidence\": 2.5\x7d").data))
      confidenceKey = some (mkRat 5 2) ∧
    ¬ (mkRat 5 2 ≤ 1) := by
  constructor
  · decide
  · decide

/-- C2, amended: the confidence invariant is enforced where pydantic
validation or the clamp runs — `AgentResponse.validate_confidence`
accepts exactly the values in [0, 1] and `_parse_sage_response`'s clamp
is total — but `_parse_sage_decision` in magi_agent.py neither clamps
nor rejects, so out-of-range values reach `agent_complete` events. -/
theorem c2_confidence_amended :
    (∀ v w : Rat, validateConfidence v = some w → 0 ≤ w ∧ w ≤ 1) ∧
    (∀ v : Rat, ¬ (0 ≤ v ∧ v ≤ 1) → validateConfidence v = none) ∧
    (∀ c : Rat, 0 ≤ clampConfidence c ∧ clampConfidence c ≤ 1) := by
  refine ⟨?_, ?_, ?_⟩
  · intro v w h
    simp only [validateConfidence] at h
    split at h
    · cases h; assumption
    · cases h
  · intro v h
    simp only [validateConfidence, if_neg h]
  · intro c
    exact ⟨le_max_left 0 _, max_le zero_le_one (min_le_left 1 c)⟩

/-- C2 witness: the amended statement applied at 1/2 and at 5/2. -/
theorem c2_confidence_amended_witness :
    (0 ≤ mkRat 1 2 ∧ mkRat 1 2 ≤ 1) ∧
    validateConfidence (mkRat 5 2) = none ∧
    (0 ≤ clampConfidence (mkRat 5 2) ∧ clampConfidence (mkRat 5 2) ≤ 1) :=
  ⟨c2_confidence_amended.1 (mkRat 1 2) (mkRat 1 2) (by decide),
   c2_confidence_amended.2.1 (mkRat 5 2) (by decide),
   c2_confidence_amended.2.2 (mkRat 5 2)⟩

/-! ## C5 -/

/-- C5, counterexample: with an all-APPROVED input batch and an
unparseable judge output, the judge stream of magi_agent.py yields the
fixed REJECTED record while the Vote Aggregator's tally of that batch is
APPROVED — the fallback final decision is not the tally. -/
theorem c5_fixed_fallback_counterexample :
    jsonStrField (solomonCompleteResult (("no json present here").data)) finalDecisionKey =
      some (("REJECTED").data) ∧
    jsonNumField (solomonCompleteResult (("no json present here").data)) confidenceKey =
      some (mkRat 1 2) ∧
    (createFallbackJudgment
        [⟨AgentType.caspar, .APPROVED, [], [], 1, 0⟩,
         ⟨AgentType.balthasar, .APPROVED, [], [], 1, 0⟩,
         ⟨AgentType.melchior, .APPROVED, [], [], 1, 0⟩]).finalDecision =
      DecisionType.APPROVED ∧
    ("REJECTED").data ≠ ("APPROVED").data := by
  refine ⟨by decide, by decide, by decide, by decide⟩

/-- C5, amended: the strands implementation does fall back to the Vote
Aggregator over the input batch whenever `_parse_solomon_response`'s
`try` body fails, and that aggregation follows the spec's rule; but
the judge stream of magi_agent.py substitutes a fixed REJECTED record
with confidence 0.5, independent of the batch. -/
theorem c5_parse_failure_amended :
    (∀ (text : List Char) (rs : List AgentResponse) (et : Nat),
      trySolomonParsed text rs et = none →
      parseSolomonResponse text rs et = createFallbackJudgment rs ∧
      (parseSolomonResponse text rs et).finalDecision =
        specVoteRule (rs.countP (fun r => decide (r.decision = DecisionType.APPROVED)))
          (rs.countP (fun r => decide (r.decision = DecisionType.REJECTED)))) ∧
    (∀ text : List Char,
      10 ≤ text.length →
      charIndex text lbrace = none →
      jsonLoads (pyStrip text) = none →
      jsonStrField (solomonCompleteResult text) finalDecisionKey = some (("REJECTED").data) ∧
      jsonNumField (solomonCompleteResult text) confidenceKey = some (mkRat 1 2)) := by
  constructor
  · intro text rs et h
    have hp : parseSolomonResponse text rs et = createFallbackJudgment rs := by
      simp only [parseSolomonResponse, h]
    exact ⟨hp, by rw [hp]; exact fallbackJudgment_follows_rule rs⟩
  · intro text hlen hbrace hloads
    have hnotlt : ¬ (text.length < 10) := by omega
    have hne : text ≠ [] := by
      intro h0
      rw [h0] at hlen
      simp at hlen
    have hext : extractJsonBlock text finalDecisionHint = none := by
      cases hfind : findSub text finalDecisionHint with
      | none => simp [extractJsonBlock, hfind, hne]
      | some keyPos =>
        cases hlast : lastCharIndexBefore text lbrace keyPos with
        | none => simp [extractJsonBlock, hfind, hlast, hne]
        | some idx => exact (lastCharIndexBefore_subset_charIndex hlast hbrace).elim
    constructor
    · simp only [solomonCompleteResult, if_neg hnotlt, hext, Option.getD_none,
        hbrace, Option.isSome_none, Bool.false_eq_true, and_false, if_false,
        if_true, hloads]
      rfl
    · simp only [solomonCompleteResult, if_neg hnotlt, hext, Option.getD_none,
        hbrace, Option.isSome_none, Bool.false_eq_true, and_false, if_false,
        if_true, hloads]
      rfl

/-- C5 witness: the amended statement at a concrete unparseable output
and the all-APPROVED batch. -/
theorem c5_parse_failure_amended_witness :
    parseSolomonResponse (("...").data)
        [⟨AgentType.caspar, .APPROVED, [], [], 1, 0⟩,
         ⟨AgentType.balthasar, .APPROVED, [], [], 1, 0⟩,
         ⟨AgentType.melchior, .APPROVED, [], [], 1, 0⟩] 0 =
      createFallbackJudgment
        [⟨AgentType.caspar, .APPROVED, [], [], 1, 0⟩,
         ⟨AgentType.balthasar, .APPROVED, [], [], 1, 0⟩,
         ⟨AgentType.melchior, .APPROVED, [], [], 1, 0⟩] ∧
    jsonStrField (solomonCompleteResult (("no json present here").data)) finalDecisionKey =
      some (("REJECTED").data) :=
  ⟨(c5_parse_failure_amended.1 (("...").data) _ 0 rfl).1,
   (c5_parse_failure_amended.2 (("no json present here").data) (by decide) (by rfl) (by rfl)).1⟩

/-! ## C6 -/

/-- C6, counterexample: the integrator's error record carries
confidence 0.5, not the claimed 0.0. -/
theorem c6_integrator_error_confidence_counterexample :
    jsonNumField (solomonErrorRecord (("boom").data)) confidenceKey = some (mkRat 1 2) ∧
    ¬ (mkRat 1 2 = (0 : Rat)) := by
  refine ⟨by decide, by decide⟩

/-- C6, amended: every stream exception is absorbed into an error event
followed by a terminal record — ABSTAINED with confidence 0.0 for a
sage of magi_agent.py, REJECTED with confidence 0.0 for a strands sage
— but the integrator's error record is REJECTED with confidence 0.5
(and synthesized scores of 50), not 0.0.  The handlers are total
functions of the exception message: no exception propagates. -/
theorem c6_error_containment_amended :
    (∀ msg : List Char,
      sageErrorOutcome msg = [.errorEvent msg, .agentComplete (sageErrorRecord msg)] ∧
      jsonStrField (sageErrorRecord msg) decisionKey = some (("ABSTAINED").data) ∧
      jsonNumField (sageErrorRecord msg) confidenceKey = some 0) ∧
    (∀ (s : AgentType) (msg : List Char) (et : Nat),
      (consultSingleSageErrorResponse s msg et).decision = DecisionType.REJECTED ∧
      (consultSingleSageErrorResponse s msg et).confidence = 0) ∧
    (∀ msg : List Char,
      solomonErrorOutcome msg = [.judgeError msg, .judgeComplete (solomonErrorRecord msg)] ∧
      jsonStrField (solomonErrorRecord msg) finalDecisionKey = some (("REJECTED").data) ∧
      jsonNumField (solomonErrorRecord msg) confidenceKey = some (mkRat 1 2) ∧
      jsonNumField ((jsonGet (solomonErrorRecord msg) sageScoresKey).getD .null)
        (("caspar").data) = some 50) := by
  refine ⟨?_, ?_, ?_⟩
  · intro msg
    exact ⟨rfl, rfl, rfl⟩
  · intro s msg et
    exact ⟨rfl, rfl⟩
  · intro msg
    exact ⟨rfl, rfl, rfl, rfl⟩

/-! ## C7 -/

/-- C7, counterexample: for the empty question, the streaming driver
`process_decision_stream` performs no validation — it emits `start` and
`sages_start` and proceeds to consult all three sages instead of
failing fast. -/
theorem c7_no_driver_validation_counterexample :
    processDecisionStreamPrefix (some []) =
      [PipeEvent.start [], PipeEvent.sagesStart 3] ∧
    PipeEvent.sagesStart 3 ∈ processDecisionStreamPrefix (some []) := by
  refine ⟨rfl, by decide⟩

/-- C7, amended: empty or whitespace-only questions are rejected before
any worker runs on the pydantic-validated path (`MAGIDecisionRequest`
construction inside the Lambda handler returns the 500 response before
`magi.decide`), but the streaming driver `process_decision_stream`
launches the sages for every question, including empty ones. -/
theorem c7_fail_fast_amended :
    (∀ q : List Char, pyStrip q = [] → validateQuestion q = none) ∧
    (∀ b : LambdaBody, pyStrip (handlerQuestion b) = [] →
      lambdaHandlerOutcome b = .errorResponse 500) ∧
    (∀ oq : Option (List Char), PipeEvent.sagesStart 3 ∈ processDecisionStreamPrefix oq) := by
  refine ⟨?_, ?_, ?_⟩
  · intro q h
    simp [validateQuestion, h]
  · intro b h
    have hv : validateQuestion (handlerQuestion b) = none := by
      simp [validateQuestion, h]
    have hm : magiRequestQuestion (handlerQuestion b) = none := by
      simp only [magiRequestQuestion, hv]
      split <;> rfl
    simp [lambdaHandlerOutcome, hm]
  · intro oq
    simp [processDecisionStreamPrefix]

/-- C7 witness: the amended statement at a whitespace-only question. -/
theorem c7_fail_fast_amended_witness :
    validateQuestion ((" \t ").data) = none ∧
    lambdaHandlerOutcome ⟨some ((" \t ").data), none⟩ = .errorResponse 500 ∧
    PipeEvent.sagesStart 3 ∈ processDecisionStreamPrefix (some ((" \t ").data)) :=
  ⟨c7_fail_fast_amended.1 ((" \t ").data) (by decide),
   c7_fail_fast_amended.2.1 ⟨some ((" \t ").data), none⟩ (by decide),
   c7_fail_fast_amended.2.2 (some ((" \t ").data))⟩

/-! ## C4 -/

set_option maxRecDepth 4000 in
/-- C4, counterexample: with a 300-character partial text and the
default 90-second sage timeout, the timeout record's reasoning is 152
characters long — it keeps only the first 100 characters of the partial
text, so the accumulated partial text is not preserved in the record's
reasoning; the timeout event likewise carries only the first 200
characters. -/
theorem c4_truncation_counterexample :
    ((jsonStrField (sageTimeoutRecord 90 (List.replicate 300 'a')) reasoningKey).getD
      []).length = 152 ∧
    ¬ (List.replicate 300 'a' <:+:
        (jsonStrField (sageTimeoutRecord 90 (List.replicate 300 'a')) reasoningKey).getD []) ∧
    (sageTimeoutEvent 90 (List.replicate 300 'a')).partialResponse =
      some (List.replicate 200 'a') ∧
    List.replicate 200 'a' ≠ List.replicate 300 'a' := by
  refine ⟨by decide, ?_, by decide, by decide⟩
  intro h
  have hlen := List.IsInfix.length_le h
  have h152 : ((jsonStrField (sageTimeoutRecord 90 (List.replicate 300 'a')) reasoningKey).getD
      []).length = 152 := by decide
  rw [h152, List.length_replicate] at hlen
  omega

/-- An infix survives extending the list on the left. -/
lemma infix_extend_left {α : Type} (A : List α) {m y : List α} (h : m <:+: y) :
    m <:+: A ++ y := by
  obtain ⟨s, t, hst⟩ := h
  exact ⟨A ++ s, t, by rw [← hst]; simp [List.append_assoc]⟩

/-- The first 100 characters of the partial text occur inside the
timeout reasoning text. -/
lemma take100_infix_timeoutPartial (part : List Char) :
    pyTake part 100 <:+: timeoutPartialText part := by
  by_cases hp : part = []
  · subst hp
    exact List.nil_infix
  · simp only [timeoutPartialText, if_neg hp]
    exact ⟨(("Partial response (").data) ++ (toString part.length).data ++
      (" chars): ").data, (("...").data), by simp [List.append_assoc]⟩

/-- C4, amended: on a worker timeout the sage emits a timeout event
carrying the first 200 characters of the accumulated partial text and a
terminal ABSTAINED record (confidence 0.0) whose reasoning embeds the
first 100 characters of the partial text; the integrator's timeout
record is REJECTED with confidence 0.5 and per-sage scores of 50, again
embedding the first 100 characters.  Partial text beyond those prefixes
is not preserved. -/
theorem c4_timeout_record_amended :
    (∀ (t : Nat) (part : List Char),
      sageTimeoutOutcome t part =
        [.agentTimeout (sageTimeoutEvent t part), .agentComplete (sageTimeoutRecord t part)] ∧
      jsonStrField (sageTimeoutRecord t part) decisionKey = some (("ABSTAINED").data) ∧
      jsonNumField (sageTimeoutRecord t part) confidenceKey = some 0 ∧
      (sageTimeoutEvent t part).partialResponse =
        (if part = [] then none else some (pyTake part 200)) ∧
      (∃ R, jsonStrField (sageTimeoutRecord t part) reasoningKey = some R ∧
        pyTake part 100 <:+: R)) ∧
    (∀ (t : Nat) (part : List Char),
      jsonStrField (solomonTimeoutRecord t part) finalDecisionKey = some (("REJECTED").data) ∧
      jsonNumField (solomonTimeoutRecord t part) confidenceKey = some (mkRat 1 2) ∧
      jsonNumField ((jsonGet (solomonTimeoutRecord t part) sageScoresKey).getD .null)
        (("caspar").data) = some 50 ∧
      (∃ R, jsonStrField (solomonTimeoutRecord t part) reasoningKey = some R ∧
        pyTake part 100 <:+: R)) := by
  constructor
  · intro t part
    refine ⟨rfl, rfl, rfl, rfl, ?_⟩
    refine ⟨_, rfl, infix_extend_left _ (take100_infix_timeoutPartial part)⟩
  · intro t part
    refine ⟨rfl, rfl, rfl, ?_⟩
    refine ⟨_, rfl, infix_extend_left _ (take100_infix_timeoutPartial part)⟩

/-! ## C9 -/

/-- Projection distributes over queue/output appends. -/
lemma workerEvents_append {E : Type} (i : Nat) (l1 l2 : List (Nat × E)) :
    workerEvents i (l1 ++ l2) = workerEvents i l1 ++ workerEvents i l2 :=
  List.filterMap_append l1 l2 _

/-- One multiplexer step never changes a worker's residual event
sequence: emitted output, queued events, and still-pending events of
worker `i` always concatenate to the same list. -/
lemma mergeStep_residual {E : Type} (s : MergeState E) (c : MergeChoice) (i : Nat) :
    workerEvents i (mergeStep s c).output ++ workerEvents i (mergeStep s c).queue ++
        ((mergeStep s c).pending.get? i).getD [] =
      workerEvents i s.output ++ workerEvents i s.queue ++
        ((s.pending.get? i).getD []) := by
  cases c with
  | push j =>
    simp only [mergeStep]
    cases hp : s.pending.get? j with
    | none => rfl
    | some lst =>
      cases lst with
      | nil => rfl
      | cons e rest =>
        simp only [workerEvents_append]
        by_cases hij : i = j
        · subst hij
          have hlt : i < s.pending.length := by
            by_contra hge
            rw [List.get?_eq_none.mpr (Nat.le_of_not_lt hge)] at hp
            cases hp
          rw [List.get?_set_eq_of_lt rest hlt, hp]
          simp [workerEvents, List.append_assoc]
        · have hji : i ≠ j := hij
          rw [List.get?_set_ne rest s.pending (fun h => hij h.symm)]
          have hji : ¬ j = i := fun h => hij h.symm
          have hwn : workerEvents i [(j, e)] = [] := by
            simp [workerEvents, hji]
          rw [hwn]
          simp
  | pop =>
    simp only [mergeStep]
    cases hq : s.queue with
    | nil => simp [hq]
    | cons p q =>
      obtain ⟨j, e⟩ := p
      simp only [workerEvents_append]
      by_cases hij : i = j
      · subst hij
        simp [workerEvents, List.append_assoc]
      · have hji : ¬ j = i := fun h => hij h.symm
        have hw1 : workerEvents i [(j, e)] = [] := by
          simp [workerEvents, hji]
        have hw2 : workerEvents i ((j, e) :: q) = workerEvents i q := by
          simp [workerEvents, hji]
        rw [hw1, hw2]
        simp

/-- The multiplexer invariant along any schedule. -/
lemma mergeRun_residual {E : Type} (ws : List (List E)) (cs : List MergeChoice) (i : Nat) :
    workerEvents i (mergeRun ws cs).output ++ workerEvents i (mergeRun ws cs).queue ++
        (((mergeRun ws cs).pending.get? i).getD []) = (ws.get? i).getD [] := by
  suffices h : ∀ (s : MergeState E),
      workerEvents i (cs.foldl mergeStep s).output ++
          workerEvents i (cs.foldl mergeStep s).queue ++
          (((cs.foldl mergeStep s).pending.get? i).getD []) =
        workerEvents i s.output ++ workerEvents i s.queue ++ ((s.pending.get? i).getD []) by
    simpa [mergeRun, workerEvents] using h ⟨ws, [], []⟩
  induction cs with
  | nil => intro s; rfl
  | cons c cs ih =>
    intro s
    simpa [List.foldl_cons] using (ih (mergeStep s c)).trans (mergeStep_residual s c i)

/-- C9 (confirmed): for every schedule of the multiplexer — every
interleaving of queue puts and consumer gets the event loop can produce
— the subsequence of yielded events belonging to one worker is a prefix
of that worker's own emission sequence (its order is preserved), and
once the queue is drained and that worker has no pending events it is
exactly the worker's full emission sequence. -/
theorem c9_per_worker_order {E : Type} (ws : List (List E)) (cs : List MergeChoice)
    (i : Nat) :
    (workerEvents i (mergeRun ws cs).output <+: (ws.get? i).getD []) ∧
    ((mergeRun ws cs).queue = [] ∧ (((mergeRun ws cs).pending.get? i).getD []) = [] →
      workerEvents i (mergeRun ws cs).output = (ws.get? i).getD []) := by
  have h := mergeRun_residual ws cs i
  constructor
  · exact ⟨workerEvents i (mergeRun ws cs).queue ++
      (((mergeRun ws cs).pending.get? i).getD []), by
        rw [← h]; simp [List.append_assoc]⟩
  · intro ⟨hq, hp⟩
    rw [← h, hq, hp]
    simp [workerEvents]

/-- C9 witness: a concrete three-worker interleaved schedule where the
fast worker's two events pass the slow workers' events. -/
theorem c9_per_worker_order_witness :
    (workerEvents 0 (mergeRun [[10, 20], [30]] [.push 1, .push 0, .push 0, .pop, .pop, .pop]).output
        <+: ([[10, 20], [30]].get? 0).getD []) ∧
    workerEvents 0 (mergeRun [[10, 20], [30]] [.push 1, .push 0, .push 0, .pop, .pop, .pop]).output
        = [10, 20] :=
  ⟨(c9_per_worker_order [[10, 20], [30]] [.push 1, .push 0, .push 0, .pop, .pop, .pop] 0).1,
   by
    have h := (c9_per_worker_order [[10, 20], [30]]
      [.push 1, .push 0, .push 0, .pop, .pop, .pop] 0).2 (by decide)
    simpa using h⟩

/-! ## C8 -/

/-- C8 (confirmed): when structured extraction fails — the strands path
reaches `_fallback_parse_response`, or in magi_agent.py both the
`json.loads` method and the decision-regex method fail — and the raw
text contains no approval keyword (case-insensitive `approved`, `可決`,
`承認`), the fallback classification is REJECTED (strands keyword
heuristic) or ABSTAINED (magi_agent default), never APPROVED. -/
theorem c8_no_silent_approval (text : List Char) (aid : AgentType) (et : Nat)
    (agentId buffer fullResponse : List Char)
    (hk1 : containsSub (pyLower text) (("approved").data) = false)
    (hk2 : containsSub (pyLower text) (("可決").data) = false)
    (hk3 : containsSub (pyLower text) (("承認").data) = false)
    (hm1 : sageMethod1 buffer = none)
    (hm2 : searchKeyString decisionKey buffer = none) :
    (fallbackParseResponse text aid et).decision = DecisionType.REJECTED ∧
    jsonStrField (sageCompleteResult agentId buffer fullResponse) decisionKey =
      some (("ABSTAINED").data) := by
  constructor
  · simp only [fallbackParseResponse, hk1, hk2, hk3, Bool.or_self, Bool.or_false,
      Bool.false_eq_true, if_false]
  · by_cases hb : buffer = []
    · simp only [sageCompleteResult, parseSageDecisionCore, hb, if_true]
      rfl
    · simp only [sageCompleteResult, parseSageDecisionCore, hb, if_false]
      cases hc : sageJsonCandidate buffer with
      | none => rfl
      | some t =>
        rw [hm1, hm2]
        rfl

/-- C8 witness: the theorem at the keyword-free, brace-free text
`no json here`. -/
theorem c8_no_silent_approval_witness :
    (fallbackParseResponse (("no json here").data) AgentType.caspar 0).decision =
      DecisionType.REJECTED ∧
    jsonStrField (sageCompleteResult (("caspar").data) (("no json here").data) [])
      decisionKey = some (("ABSTAINED").data) :=
  c8_no_silent_approval (("no json here").data) .caspar 0 (("caspar").data)
    (("no json here").data) [] (by decide) (by decide) (by decide) (by rfl) (by decide)

/-! ## C10 -/

/-- A `get?` hit bounds the index. -/
lemma get?_some_lt {α : Type} {l : List α} {i : Nat} {x : α}
    (h : l.get? i = some x) : i < l.length := by
  by_contra hge
  rw [List.get?_eq_none.mpr (Nat.le_of_not_lt hge)] at h
  cases h

/-- `lastCharIndex` returns an index holding the character. -/
lemma lastCharIndex_get {l : List Char} {c : Char} {i : Nat}
    (h : lastCharIndex l c = some i) : l.get? i = some c := by
  induction l generalizing i with
  | nil => cases h
  | cons x rest ih =>
    rw [lastCharIndex] at h
    cases hr : lastCharIndex rest c with
    | some j =>
      rw [hr] at h
      cases h
      simpa using ih hr
    | none =>
      rw [hr] at h
      by_cases hx : x = c
      · rw [if_pos hx] at h
        cases h
        simp [hx]
      · rw [if_neg hx] at h
        cases h

/-- `dropWhile` is the identity when the head fails the predicate. -/
lemma dropWhile_eq_self_of_head {p : Char → Bool} {l : List Char} {x : Char}
    (hh : l.head? = some x) (hp : p x = false) : l.dropWhile p = l := by
  cases l with
  | nil => cases hh
  | cons a t =>
    simp only [List.head?_cons, Option.some.injEq] at hh
    subst hh
    simp [List.dropWhile_cons, hp]

/-- `str.strip()` is the identity on text with non-space first and last
characters. -/
lemma pyStrip_eq_self {l : List Char} {x y : Char}
    (hh : l.head? = some x) (hx : isPySpace x = false)
    (hl : l.getLast? = some y) (hy : isPySpace y = false) : pyStrip l = l := by
  unfold pyStrip
  rw [dropWhile_eq_self_of_head hh hx]
  rw [dropWhile_eq_self_of_head (by rw [List.head?_reverse]; exact hl) hy]
  exact List.reverse_reverse l

/-- Soundness of the balanced-brace scan: any returned candidate is the
strip of a prefix of the scanned region ending at a `}`, and it passed
the `json.loads` validity test. -/
lemma braceScanGo_sound : ∀ (rem pre : List Char) (depth : Int) (out : List Char),
    braceScanGo pre rem depth = some out →
    (jsonLoads out).isSome = true ∧
    ∃ k, k < rem.length ∧ rem.get? k = some rbrace ∧
      out = pyStrip (pre ++ rem.take (k + 1)) := by
  intro rem
  induction rem with
  | nil =>
    intro pre depth out h
    cases h
  | cons c rest ih =>
    intro pre depth out h
    rw [braceScanGo] at h
    split at h
    · rename_i hcond
      split at h
      · rename_i v hl
        cases h
        refine ⟨by rw [hl]; rfl, 0, by simp, by simp [hcond.1], by simp⟩
      · obtain ⟨hs, k, hk, hkb, hout⟩ := ih (pre ++ [c]) _ out h
        refine ⟨hs, k + 1, by simpa using Nat.succ_lt_succ hk, by simpa using hkb, ?_⟩
        rw [hout]
        simp [List.append_assoc]
    · obtain ⟨hs, k, hk, hkb, hout⟩ := ih (pre ++ [c]) _ out h
      refine ⟨hs, k + 1, by simpa using Nat.succ_lt_succ hk, by simpa using hkb, ?_⟩
      rw [hout]
      simp [List.append_assoc]

/-- C10 (confirmed): whenever `_extract_json_block` returns a result, it
is a contiguous slice of the input that starts at the nearest `{`
preceding the first occurrence of the key hint and is accepted by
`json.loads`; and it returns `None` whenever the key hint does not occur
in the input. -/
theorem c10_extract_json_block (fullText keyHint s : List Char) :
    (extractJsonBlock fullText keyHint = some s →
      (jsonLoads s).isSome = true ∧
      s <:+: fullText ∧
      ∃ keyPos startIndex k,
        findSub fullText keyHint = some keyPos ∧
        lastCharIndexBefore fullText lbrace keyPos = some startIndex ∧
        s = pySlice fullText startIndex (startIndex + (k + 1))) ∧
    (findSub fullText keyHint = none → extractJsonBlock fullText keyHint = none) := by
  constructor
  · intro h
    unfold extractJsonBlock at h
    by_cases hft : fullText = []
    · rw [if_pos hft] at h
      cases h
    · rw [if_neg hft] at h
      cases hfind : findSub fullText keyHint with
      | none =>
        simp only [hfind] at h
        exact Option.noConfusion h
      | some keyPos =>
        cases hlast : lastCharIndexBefore fullText lbrace keyPos with
        | none =>
          simp only [hfind, hlast] at h
          exact Option.noConfusion h
        | some a =>
          simp only [hfind, hlast] at h
          obtain ⟨hs, k, hk, hkb, hout⟩ := braceScanGo_sound _ _ _ _ h
          rw [List.nil_append] at hout
          have hta := lastCharIndex_get hlast
          have halt : a < keyPos :=
            Nat.lt_of_lt_of_le (get?_some_lt hta)
              (by simpa using List.length_take_le keyPos fullText)
          have hga : fullText.get? a = some lbrace := by
            rw [← List.get?_take halt]
            exact hta
          have hXlen : ((fullText.drop a).take (k + 1)).length = k + 1 := by
            rw [List.length_take]
            omega
          have hhead : ((fullText.drop a).take (k + 1)).head? = some lbrace := by
            rw [← List.get?_zero, List.get?_take (Nat.succ_pos k), List.get?_drop]
            simpa using hga
          have hlastc : ((fullText.drop a).take (k + 1)).getLast? = some rbrace := by
            rw [List.getLast?_eq_get? _, hXlen]
            simpa [List.get?_take (Nat.lt_succ_self k)] using hkb
          have hstrip := pyStrip_eq_self hhead (by decide) hlastc (by decide)
          have hX : (fullText.drop a).take (k + 1) = pySlice fullText a (a + (k + 1)) := by
            simp only [pySlice, List.drop_take]
            congr 1
            omega
          refine ⟨hs, ?_, keyPos, a, k, rfl, hlast, by rw [hout, hstrip, hX]⟩
          rw [hout, hstrip]
          exact ((List.take_prefix _ _).isInfix).trans ((List.drop_suffix _ _).isInfix)
  · intro hf
    unfold extractJsonBlock
    by_cases hft : fullText = []
    · rw [if_pos hft]
    · rw [if_neg hft, hf]

/-- C10 witness: the theorem's hypothesis discharged on a concrete text
with surrounding prose. -/
theorem c10_extract_json_block_witness :
    (jsonLoads (("\x7b\"decision\": \"A\"\x7d").data)).isSome = true ∧
    (("\x7b\"decision\": \"A\"\x7d").data) <:+: (("xx \x7b\"decision\": \"A\"\x7d yy").data) ∧
    ∃ keyPos startIndex k,
      findSub (("xx \x7b\"decision\": \"A\"\x7d yy").data) (("decision").data) = some keyPos ∧
      lastCharIndexBefore (("xx \x7b\"decision\": \"A\"\x7d yy").data) lbrace keyPos =
        some startIndex ∧
      (("\x7b\"decision\": \"A\"\x7d").data) =
        pySlice (("xx \x7b\"decision\": \"A\"\x7d yy").data) startIndex
          (startIndex + (k + 1)) :=
  (c10_extract_json_block (("xx \x7b\"decision\": \"A\"\x7d yy").data) (("decision").data)
    (("\x7b\"decision\": \"A\"\x7d").data)).1 (by rfl)

/-! ## C3 helper lemmas -/

lemma matchLit_self (lit r : List Char) : matchLit lit (lit ++ r) = some r := by
  induction lit with
  | nil => rfl
  | cons p ps ih => simp [matchLit, ih]

lemma matchKeyString_head_ne {key : List Char} (c : Char) (h : c ≠ dquote)
    (l : List Char) : matchKeyString key (c :: l) = none := by
  simp [matchKeyString, matchLit, h]

lemma matchKeyNumber_head_ne {key : List Char} (c : Char) (h : c ≠ dquote)
    (l : List Char) : matchKeyNumber key (c :: l) = none := by
  simp [matchKeyNumber, matchLit, h]

lemma searchKeyString_append_skip {key : List Char} (pre : List Char)
    (h : ∀ c ∈ pre, c ≠ dquote) (l : List Char) :
    searchKeyString key (pre ++ l) = searchKeyString key l := by
  induction pre with
  | nil => rfl
  | cons c pre ih =>
    rw [List.cons_append, searchKeyString,
      matchKeyString_head_ne c (h c (List.mem_cons_self c pre))]
    exact ih (fun x hx => h x (List.mem_cons_of_mem c hx))

lemma searchKeyNumber_append_skip {key : List Char} (pre : List Char)
    (h : ∀ c ∈ pre, c ≠ dquote) (l : List Char) :
    searchKeyNumber key (pre ++ l) = searchKeyNumber key l := by
  induction pre with
  | nil => rfl
  | cons c pre ih =>
    rw [List.cons_append, searchKeyNumber,
      matchKeyNumber_head_ne c (h c (List.mem_cons_self c pre))]
    exact ih (fun x hx => h x (List.mem_cons_of_mem c hx))

lemma matchKeyNumber_conf_quote_ne (x : Char) (h : x ≠ 'c') (xs : List Char) :
    matchKeyNumber confidenceKey (dquote :: x :: xs) = none := by
  have hk : dquote :: confidenceKey ++ [dquote] = dquote :: 'c' :: (("onfidence\"").data) := by rfl
  rw [matchKeyNumber, hk]
  simp [matchLit, h]

lemma takeWhile_append_stop {p : Char → Bool} (D : List Char) {x : Char}
    (hD : ∀ c ∈ D, p c = true) (hx : p x = false) (t : List Char) :
    (D ++ x :: t).takeWhile p = D := by
  induction D with
  | nil => simp [List.takeWhile_cons, hx]
  | cons d Dt ih =>
    rw [List.cons_append, List.takeWhile_cons, hD d (List.mem_cons_self d Dt),
      ih (fun c hc => hD c (List.mem_cons_of_mem d hc))]
    simp

lemma charIndex_append_left {l : List Char} {c : Char} {i : Nat}
    (h : charIndex l c = some i) (l2 : List Char) :
    charIndex (l ++ l2) c = some i := by
  induction l generalizing i with
  | nil => cases h
  | cons x rest ih =>
    rw [List.cons_append]
    simp only [charIndex] at h ⊢
    by_cases hx : x = c
    · rw [if_pos hx] at h ⊢
      exact h
    · rw [if_neg hx] at h ⊢
      cases hr : charIndex rest c with
      | none => rw [hr] at h; cases h
      | some j =>
        rw [hr] at h
        rw [ih hr]
        exact h

lemma charIndex_get {l : List Char} {c : Char} {i : Nat}
    (h : charIndex l c = some i) : l.get? i = some c := by
  induction l generalizing i with
  | nil => cases h
  | cons x rest ih =>
    simp only [charIndex] at h
    by_cases hx : x = c
    · rw [if_pos hx] at h
      cases h
      simp [hx]
    · rw [if_neg hx] at h
      cases hr : charIndex rest c with
      | none => rw [hr] at h; cases h
      | some j =>
        rw [hr] at h
        cases h
        simpa using ih hr

lemma lastCharIndex_concat (xs : List Char) (c : Char) :
    lastCharIndex (xs ++ [c]) c = some xs.length := by
  induction xs with
  | nil => simp [lastCharIndex]
  | cons x rest ih => simp [lastCharIndex, ih]

lemma drop_two_cons {l : List Char} {i : Nat} {a b : Char}
    (ha : l.get? i = some a) (hb : l.get? (i + 1) = some b) :
    l.drop i = a :: b :: l.drop (i + 2) := by
  induction l generalizing i with
  | nil => cases ha
  | cons x rest ih =>
    cases i with
    | zero =>
      simp only [List.get?] at ha hb
      cases ha
      cases rest with
      | nil => cases hb
      | cons y t =>
        simp only [List.get?] at hb
        cases hb
        rfl
    | succ j =>
      simp only [List.get?] at ha hb
      have := ih ha hb
      simpa [List.drop] using this

lemma jsonMembers_head_ne {c : Char} (h : c ≠ dquote) (fuel : Nat)
    (rest : List Char) (acc : List (List Char × Json)) :
    jsonMembers fuel (c :: rest) acc = none := by
  cases fuel with
  | zero => rfl
  | succ f => simp [jsonMembers, h]

lemma jsonValue_brace_bad {c : Char} (hws : isJsonWs c = false)
    (hdq : c ≠ dquote) (hrb : c ≠ rbrace) (fuel : Nat) (rest : List Char) :
    jsonValue fuel (lbrace :: c :: rest) = none := by
  cases fuel with
  | zero => rfl
  | succ f =>
    rw [jsonValue]
    have h1 : (lbrace :: c :: rest).dropWhile isJsonWs = lbrace :: c :: rest := by
      rw [List.dropWhile_cons]
      simp [show isJsonWs lbrace = false from by decide]
    rw [h1]
    have h2 : (c :: rest).dropWhile isJsonWs = c :: rest := by
      rw [List.dropWhile_cons, hws]
      simp
    simp only [if_pos rfl, h2, if_neg hrb]
    exact jsonMembers_head_ne hdq f rest []

lemma jsonLoads_brace_bad {c : Char} (hws : isJsonWs c = false)
    (hdq : c ≠ dquote) (hrb : c ≠ rbrace) (rest : List Char) :
    jsonLoads (lbrace :: c :: rest) = none := by
  rw [jsonLoads, jsonValue_brace_bad hws hdq hrb]


/-! ## C3 -/


lemma captureQuoted_exact (D t : List Char) (hD : ∀ c ∈ D, c ≠ dquote)
    (h3 : D ≠ []) : captureQuoted (dquote :: (D ++ dquote :: t)) = some D := by
  have hq : (fun x => !(x = dquote)) dquote = false := by simp
  have hDq : ∀ c ∈ D, (fun x : Char => !(x = dquote)) c = true := by
    intro c hc
    simp [hD c hc]
  have htw : (D ++ dquote :: t).takeWhile (fun x => !(x = dquote)) = D :=
    takeWhile_append_stop D hDq hq t
  simp only [captureQuoted, if_pos rfl, htw, if_neg h3, List.drop_left]
  simp

lemma searchKeyString_cons_fail {key : List Char} {c : Char} {l : List Char}
    (h : matchKeyString key (c :: l) = none) :
    searchKeyString key (c :: l) = searchKeyString key l := by
  rw [searchKeyString, h]

lemma searchKeyNumber_cons_fail {key : List Char} {c : Char} {l : List Char}
    (h : matchKeyNumber key (c :: l) = none) :
    searchKeyNumber key (c :: l) = searchKeyNumber key l := by
  rw [searchKeyNumber, h]

/-- C3 (confirmed): for every text in which Python-repr log noise (text
without double quotes whose first `\x7b` is followed by a single quote,
e.g. `\x7b'event': 1\x7d` lines) precedes the valid block
`\x7b"decision": "D", "confidence": 0.9\x7d` (with any nonempty
uppercase decision value `D`), `_parse_sage_decision` recovers `D` and
the confidence 0.9 of the valid object: the `json.loads` attempt on the
noise-polluted slice fails and the regex fallback finds the valid
object's fields, not the noise. -/
theorem c3_noise_robust_extraction (agentId noise D : List Char) (i : Nat)
    (h1 : ∀ c ∈ noise, c ≠ dquote)
    (h2a : charIndex noise lbrace = some i)
    (h2b : noise.get? (i + 1) = some apostrophe)
    (h3 : D ≠ [])
    (h4 : ∀ c ∈ D, c.isUpper = true) :
    ∃ j, parseSageDecisionCore agentId (noise ++ c3Valid D) = some j ∧
      jsonStrField j decisionKey = some D ∧
      jsonNumField j confidenceKey = some (mkRat 9 10) := by
  have hDdq : ∀ c ∈ D, c ≠ dquote := by
    intro c hc he
    have hu := h4 c hc
    rw [he] at hu
    exact absurd hu (by decide)
  -- the char at the first noise brace, and the apostrophe after it
  have hgi : noise.get? i = some lbrace := charIndex_get h2a
  have hilt : i < noise.length := get?_some_lt hgi
  -- full text facts
  have hCI : charIndex (noise ++ c3Valid D) lbrace = some i :=
    charIndex_append_left h2a _
  have hfne : noise ++ c3Valid D ≠ [] := by
    intro he
    have := charIndex_get hCI
    rw [he] at this
    cases this
  -- split the closing brace off the end
  have hfull2 : noise ++ c3Valid D =
      (noise ++ (("\x7b\"decision\": \"").data ++ D ++ ("\", \"confidence\": 0.9").data))
        ++ [rbrace] := by
    simp only [c3Valid, c3S, List.append_assoc]
    rfl
  have hLast : lastCharIndex (noise ++ c3Valid D) rbrace =
      some (noise ++ (("\x7b\"decision\": \"").data ++ D ++
        ("\", \"confidence\": 0.9").data)).length := by
    rw [hfull2]
    exact lastCharIndex_concat _ _
  have hflen : (noise ++ c3Valid D).length =
      (noise ++ (("\x7b\"decision\": \"").data ++ D ++
        ("\", \"confidence\": 0.9").data)).length + 1 := by
    rw [hfull2, List.length_append]
    rfl
  -- the method-1 candidate is the drop at the first brace
  have hcand : sageJsonCandidate (noise ++ c3Valid D) =
      some ((noise ++ c3Valid D).drop i) := by
    simp only [sageJsonCandidate, hCI, hLast]
    rw [if_neg (by rw [List.length_append]; omega)]
    rw [pySlice, ← hflen, List.take_length]
  -- the candidate starts with a brace and an apostrophe, so json.loads fails
  have hdrop : (noise ++ c3Valid D).drop i =
      lbrace :: apostrophe :: (noise.drop (i + 2) ++ c3Valid D) := by
    rw [List.drop_append_of_le_length (Nat.le_of_lt hilt)]
    rw [drop_two_cons hgi h2b]
    rfl
  have hm1 : sageMethod1 (noise ++ c3Valid D) = none := by
    simp only [sageMethod1, hcand]
    rw [hdrop, jsonLoads_brace_bad (by decide) (by decide) (by decide)]
  -- preliminaries for the regex searches
  have hpre : ∀ c ∈ noise ++ [lbrace], c ≠ dquote := by
    intro c hc
    rcases List.mem_append.mp hc with hn | hb
    · exact h1 c hn
    · rcases List.mem_singleton.mp hb with rfl
      decide
  have hdecomp : noise ++ c3Valid D = (noise ++ [lbrace]) ++
      (dquote :: (("decision\": \"").data ++ (D ++ c3S))) := by
    rw [← List.append_cons]
    rfl
  -- the decision regex recovers D
  have hmkS : matchKeyString decisionKey
      (dquote :: (("decision\": \"").data ++ (D ++ c3S))) = some D := by
    show captureQuoted (dquote :: (D ++ c3S)) = some D
    exact captureQuoted_exact D _ hDdq h3
  have hsearchD : searchKeyString decisionKey (noise ++ c3Valid D) = some D := by
    rw [hdecomp, searchKeyString_append_skip _ hpre, searchKeyString, hmkS]
  -- the confidence regex recovers 0.9
  obtain ⟨d0, D2, rfl⟩ := List.exists_cons_of_ne_nil h3
  have hd0c : d0 ≠ 'c' := by
    intro he
    have hu := h4 d0 (List.mem_cons_self d0 D2)
    rw [he] at hu
    exact absurd hu (by decide)
  have hnum : searchKeyNumber confidenceKey (noise ++ c3Valid (d0 :: D2)) =
      some (("0.9").data) := by
    rw [hdecomp, searchKeyNumber_append_skip _ hpre]
    show searchKeyNumber confidenceKey (dquote :: 'd' :: 'e' :: 'c' :: 'i' :: 's' :: 'i' ::
      'o' :: 'n' :: dquote :: ':' :: ' ' :: dquote :: ((d0 :: D2) ++ c3S)) =
      some (("0.9").data)
    rw [searchKeyNumber_cons_fail (matchKeyNumber_conf_quote_ne 'd' (by decide) _)]
    rw [searchKeyNumber_cons_fail (matchKeyNumber_head_ne 'd' (by decide) _)]
    rw [searchKeyNumber_cons_fail (matchKeyNumber_head_ne 'e' (by decide) _)]
    rw [searchKeyNumber_cons_fail (matchKeyNumber_head_ne 'c' (by decide) _)]
    rw [searchKeyNumber_cons_fail (matchKeyNumber_head_ne 'i' (by decide) _)]
    rw [searchKeyNumber_cons_fail (matchKeyNumber_head_ne 's' (by decide) _)]
    rw [searchKeyNumber_cons_fail (matchKeyNumber_head_ne 'i' (by decide) _)]
    rw [searchKeyNumber_cons_fail (matchKeyNumber_head_ne 'o' (by decide) _)]
    rw [searchKeyNumber_cons_fail (matchKeyNumber_head_ne 'n' (by decide) _)]
    rw [searchKeyNumber_cons_fail (matchKeyNumber_conf_quote_ne ':' (by decide) _)]
    rw [searchKeyNumber_cons_fail (matchKeyNumber_head_ne ':' (by decide) _)]
    rw [searchKeyNumber_cons_fail (matchKeyNumber_head_ne ' ' (by decide) _)]
    rw [List.cons_append]
    rw [searchKeyNumber_cons_fail (matchKeyNumber_conf_quote_ne d0 hd0c _)]
    rw [searchKeyNumber_cons_fail
      (matchKeyNumber_head_ne d0 (hDdq d0 (List.mem_cons_self d0 D2)) _)]
    rw [searchKeyNumber_append_skip D2 (fun c hc => hDdq c (List.mem_cons_of_mem d0 hc))]
    decide
  -- assemble
  refine ⟨regexResult (d0 :: D2) (some (mkRat 9 10))
    (searchKeyString reasoningKey (noise ++ c3Valid (d0 :: D2))), ?_, ?_, ?_⟩
  · simp only [parseSageDecisionCore, hfne, if_false, hcand, hm1, hsearchD, hnum,
      show pyFloat (("0.9").data) = some (mkRat 9 10) from by decide]
  · rfl
  · rfl


/-- C3 witness: the theorem at the claim's own example text
`\x7b'event': 1\x7d` + newline + the valid APPROVED block. -/
theorem c3_noise_robust_extraction_witness :
    ∃ j, parseSageDecisionCore (("caspar").data)
        (((("\x7b").data ++ apostrophe :: ("event").data ++ apostrophe ::
          (": 1\x7d\n").data)) ++ c3Valid (("APPROVED").data)) = some j ∧
      jsonStrField j decisionKey = some (("APPROVED").data) ∧
      jsonNumField j confidenceKey = some (mkRat 9 10) :=
  c3_noise_robust_extraction (("caspar").data)
    (("\x7b").data ++ apostrophe :: ("event").data ++ apostrophe :: (": 1\x7d\n").data)
    (("APPROVED").data) 0 (by decide) (by decide) (by decide) (by decide) (by decide)

end MAGI
